import Mathlib

/-!
Verification development for the `eodms-api-client` repository.

The definitions below are a shallow embedding of the Python code in
`eodms_api_client/eodms.py` (class `EodmsAPI`).  Network interaction is
modelled by explicit server oracles (lists of replies consumed one per
request, or functions from request keys to replies), the local filesystem
is modelled as a map from paths to optional byte sizes, and Python's
`None`-returning / exception-raising behaviours are modelled with
`Option` and `Except`.  All definitions are computable so that concrete
runs can be evaluated with `decide` / `rfl`.
-/

namespace Eodms

/-- Constant `EODMS_DEFAULT_MAXRESULTS = 1000` (eodms.py line 19). -/
def EODMS_DEFAULT_MAXRESULTS : Nat := 1000

/-- Constant `EODMS_SUBMIT_HARDLIMIT = 50` (eodms.py line 20). -/
def EODMS_SUBMIT_HARDLIMIT : Nat := 50

/-! ## Search pager (`EodmsAPI._submit_search`, eodms.py lines 115-160)

The search URL carries a `maxResults` component which `_submit_search`
reads back with a regex and rewrites on every pagination retry; the URL
is abstracted to that `maxResults` value, the only part the method ever
inspects or changes.  The server is modelled as a list of replies, one
consumed per issued GET. -/

/-- The JSON body of a successful search response: `totalResults` plus the
raw hit list (each hit is represented by its `thisRecordUrl`). -/
structure SearchResponse where
  totalResults : Nat
  results : List String
deriving DecidableEq, Repr

/-- One server reply to a search GET:
`connError` models a raised `requests.ConnectionError`;
`maintenance` models HTTP-200 whose body contains `'Thanks for your patience'`;
`httpError` models a non-2xx response (`r.ok` false);
`ok` is a parsed JSON body. -/
inductive ServerReply where
  | connError
  | maintenance
  | httpError
  | ok (data : SearchResponse)
deriving DecidableEq, Repr

/-- What `_submit_search` ultimately evaluates to:
`pyNone` models the implicit `None` return on a non-2xx response,
`down` models the `{'results': []}` dict returned when the maintenance
sentinel is seen, `page` is a returned JSON page. -/
inductive PagerResult where
  | pyNone
  | down
  | page (data : SearchResponse)
deriving DecidableEq, Repr

/-- Shallow embedding of `_submit_search` (eodms.py lines 115-160).

Returns the trace of issued GETs (the `maxResults` limit of each request
paired with the reply the server gave) together with the final value,
`none` when the supplied reply list was exhausted while the method was
still re-querying (the real code would still be looping).

* a `connError` reply re-issues the same request after a sleep
  (lines 134-137);
* a `maintenance` reply returns the dirty `{'results': []}` dict
  (lines 140-143);
* an `ok` reply whose `totalResults` equals the requested limit bumps the
  limit by `EODMS_DEFAULT_MAXRESULTS` and re-queries (lines 148-158),
  otherwise the page is returned (line 160);
* a non-2xx reply falls off the end of the method: Python returns `None`.
-/
def submitSearch : List ServerReply → Nat → List (Nat × ServerReply) × Option PagerResult
  | [], _ => ([], none)
  | r :: rs, limit =>
    match r with
    | .connError =>
      let rec' := submitSearch rs limit
      ((limit, r) :: rec'.1, rec'.2)
    | .maintenance => ([(limit, r)], some .down)
    | .httpError => ([(limit, r)], some .pyNone)
    | .ok data =>
      if data.totalResults = limit then
        let rec' := submitSearch rs (limit + EODMS_DEFAULT_MAXRESULTS)
        ((limit, r) :: rec'.1, rec'.2)
      else
        ([(limit, r)], some (.page data))

/-- Every request issued by `submitSearch` carries a limit at least as
large as the starting limit. -/
theorem submitSearch_limit_mono (rs : List ServerReply) (limit : Nat) :
    ∀ p ∈ (submitSearch rs limit).1, limit ≤ p.1 := by
  induction rs generalizing limit with
  | nil => intro p hp; simp [submitSearch] at hp
  | cons r rs ih =>
    intro p hp
    match r with
    | .connError =>
      simp only [submitSearch] at hp
      rcases List.mem_cons.mp hp with h | h
      · subst h; exact Nat.le_refl _
      · exact ih limit p h
    | .maintenance => simp [submitSearch] at hp; simp [hp]
    | .httpError => simp [submitSearch] at hp; simp [hp]
    | .ok data =>
      by_cases hsat : data.totalResults = limit
      · simp only [submitSearch, if_pos hsat] at hp
        rcases List.mem_cons.mp hp with h | h
        · subst h; exact Nat.le_refl _
        · exact le_trans (Nat.le_add_right _ _) (ih (limit + EODMS_DEFAULT_MAXRESULTS) p h)
      · simp [submitSearch, if_neg hsat] at hp; simp [hp]

/-- When at least one reply is available, the first issued request uses
exactly the starting limit and receives the first reply. -/
theorem submitSearch_head (r : ServerReply) (rs : List ServerReply) (limit : Nat) :
    ∃ t, (submitSearch (r :: rs) limit).1 = (limit, r) :: t := by
  match r with
  | .connError => exact ⟨_, rfl⟩
  | .maintenance => exact ⟨_, rfl⟩
  | .httpError => exact ⟨_, rfl⟩
  | .ok data =>
    by_cases hsat : data.totalResults = limit
    · exact ⟨(submitSearch rs (limit + EODMS_DEFAULT_MAXRESULTS)).1,
        by simp [submitSearch, if_pos hsat]⟩
    · exact ⟨[], by simp [submitSearch, if_neg hsat]⟩

/-- A request/reply pair of the pager trace is a pagination hit when the
server answered with a page whose `totalResults` equals the requested
limit: exactly the condition (eodms.py line 148) that triggers one more
query. -/
def isPaginationHit (p : Nat × ServerReply) : Prop :=
  ∃ d, p.2 = ServerReply.ok d ∧ d.totalResults = p.1

instance (p : Nat × ServerReply) : Decidable (isPaginationHit p) := by
  unfold isPaginationHit
  match p with
  | (l, ServerReply.connError) => exact isFalse (by simp)
  | (l, ServerReply.maintenance) => exact isFalse (by simp)
  | (l, ServerReply.httpError) => exact isFalse (by simp)
  | (l, ServerReply.ok d) =>
    by_cases h : d.totalResults = l
    · exact isTrue ⟨d, rfl, h⟩
    · exact isFalse (by simp [h])

/-- C1: For every search response in which `totalResults` equals the
currently requested `maxResults` limit, the pager issues exactly one more
request, whose limit is the old limit plus `EODMS_DEFAULT_MAXRESULTS`
(strictly larger, as is every limit of any later request of the run);
and as soon as `totalResults` is strictly less than the requested limit
the pager stops and returns that page. -/
theorem search_pager_saturation (rs : List ServerReply) (limit : Nat) (d : SearchResponse) :
    (d.totalResults = limit →
      (submitSearch (ServerReply.ok d :: rs) limit).1
          = (limit, ServerReply.ok d) :: (submitSearch rs (limit + EODMS_DEFAULT_MAXRESULTS)).1
        ∧ (∀ r' rs', rs = r' :: rs' →
            ∃ t, (submitSearch rs (limit + EODMS_DEFAULT_MAXRESULTS)).1
              = (limit + EODMS_DEFAULT_MAXRESULTS, r') :: t)
        ∧ (∀ p ∈ (submitSearch rs (limit + EODMS_DEFAULT_MAXRESULTS)).1, limit < p.1))
    ∧ (d.totalResults < limit →
      submitSearch (ServerReply.ok d :: rs) limit
        = ([(limit, ServerReply.ok d)], some (PagerResult.page d))) := by
  constructor
  · intro hsat
    refine ⟨by simp [submitSearch, if_pos hsat], ?_, ?_⟩
    · intro r' rs' hrs
      subst hrs
      exact submitSearch_head r' rs' (limit + EODMS_DEFAULT_MAXRESULTS)
    · intro p hp
      have hm := submitSearch_limit_mono rs (limit + EODMS_DEFAULT_MAXRESULTS) p hp
      have hpos : 0 < EODMS_DEFAULT_MAXRESULTS := by decide
      omega
  · intro hlt
    have hne : d.totalResults ≠ limit := Nat.ne_of_lt hlt
    simp [submitSearch, if_neg hne]

/-- Witness for C1, following the spec scenario: a page saturated at
limit 150 triggers exactly one re-query at limit 1150, and a page with
87 results against limit 1150 is returned as-is. -/
theorem search_pager_saturation_witness :
    ((submitSearch (ServerReply.ok ⟨150, []⟩ :: [ServerReply.ok ⟨87, []⟩]) 150).1
        = (150, ServerReply.ok ⟨150, []⟩)
            :: (submitSearch [ServerReply.ok ⟨87, []⟩] (150 + EODMS_DEFAULT_MAXRESULTS)).1
      ∧ (∀ r' rs', [ServerReply.ok (⟨87, []⟩ : SearchResponse)] = r' :: rs' →
          ∃ t, (submitSearch [ServerReply.ok ⟨87, []⟩] (150 + EODMS_DEFAULT_MAXRESULTS)).1
            = (150 + EODMS_DEFAULT_MAXRESULTS, r') :: t)
      ∧ (∀ p ∈ (submitSearch [ServerReply.ok ⟨87, []⟩] (150 + EODMS_DEFAULT_MAXRESULTS)).1,
          150 < p.1))
    ∧ submitSearch (ServerReply.ok ⟨87, []⟩ :: []) 1150
        = ([(1150, ServerReply.ok ⟨87, []⟩)], some (PagerResult.page ⟨87, []⟩)) :=
  ⟨(search_pager_saturation [ServerReply.ok ⟨87, []⟩] 150 ⟨150, []⟩).1 (by decide),
   (search_pager_saturation [] 1150 ⟨87, []⟩).2 (by decide)⟩

/-- C9: Along the whole request trace of a single search the
requested limit never decreases, and from any pagination hit (a reply
saturating the requested limit) to the next request it strictly
increases. -/
theorem search_limit_strictly_increasing (rs : List ServerReply) (limit : Nat) :
    List.Chain' (fun a b => a.1 ≤ b.1 ∧ (isPaginationHit a → a.1 < b.1))
      (submitSearch rs limit).1 := by
  induction rs generalizing limit with
  | nil => simp [submitSearch]
  | cons r rs ih =>
    match r with
    | .connError =>
      rw [submitSearch]
      refine List.chain'_cons'.mpr ⟨?_, ih limit⟩
      intro b hb
      have hmem : b ∈ (submitSearch rs limit).1 := List.mem_of_mem_head? hb
      refine ⟨submitSearch_limit_mono rs limit b hmem, ?_⟩
      intro hhit
      rcases hhit with ⟨d, hd, _⟩
      exact absurd hd (by simp)
    | .maintenance => simp [submitSearch]
    | .httpError => simp [submitSearch]
    | .ok data =>
      by_cases hsat : data.totalResults = limit
      · rw [submitSearch, if_pos hsat]
        refine List.chain'_cons'.mpr ⟨?_, ih (limit + EODMS_DEFAULT_MAXRESULTS)⟩
        intro b hb
        have hmem : b ∈ (submitSearch rs (limit + EODMS_DEFAULT_MAXRESULTS)).1 :=
          List.mem_of_mem_head? hb
        have hmono := submitSearch_limit_mono rs (limit + EODMS_DEFAULT_MAXRESULTS) b hmem
        have hpos : 0 < EODMS_DEFAULT_MAXRESULTS := by decide
        exact ⟨by omega, fun _ => by omega⟩
      · simp [submitSearch, if_neg hsat]

/-! ## Python string case helpers

`order` validates and normalizes its `priority` argument with
`priority.capitalize()` (eodms.py lines 258 and 285).  Python's
`str.capitalize` upper-cases the first character and lower-cases the
rest; for the basic-latin strings involved here this is
`Char.toUpper` / `Char.toLower`.  Strings are handled as `List Char`. -/

/-- Python `str.capitalize()`: first character upper-cased, remaining
characters lower-cased. -/
def pyCapitalize : List Char → List Char
  | [] => []
  | c :: cs => c.toUpper :: cs.map Char.toLower

/-- Python `str.lower()`: every character lower-cased.  Used to state
"equal up to letter case" (two strings match case-insensitively iff
their lower-casings coincide). -/
def pyLower (s : List Char) : List Char := s.map Char.toLower

/-- The recognized priorities (eodms.py line 258). -/
def PRIORITY_CHOICES : List (List Char) :=
  [['L', 'o', 'w'], ['M', 'e', 'd', 'i', 'u', 'm'],
   ['H', 'i', 'g', 'h'], ['U', 'r', 'g', 'e', 'n', 't']]

/-- The recognized priorities, lower-cased. -/
def PRIORITY_CHOICES_LOWER : List (List Char) :=
  [['l', 'o', 'w'], ['m', 'e', 'd', 'i', 'u', 'm'],
   ['h', 'i', 'g', 'h'], ['u', 'r', 'g', 'e', 'n', 't']]

theorem char_toNat_ofNat_valid (n : Nat) (h : n.isValidChar) : (Char.ofNat n).toNat = n := by
  unfold Char.ofNat
  rw [dif_pos h]
  rfl

theorem char_toNat_injective {a b : Char} (h : a.toNat = b.toNat) : a = b := by
  apply Char.ext
  exact UInt32.toNat.inj h

theorem toUpper_eq_iff (u l c : Char)
    (h97 : 97 ≤ l.toNat) (h122 : l.toNat ≤ 122) (hu : u.toNat + 32 = l.toNat) :
    c.toUpper = u ↔ (c = l ∨ c = u) := by
  unfold Char.toUpper
  by_cases hr : 97 ≤ c.toNat ∧ c.toNat ≤ 122
  · rw [if_pos hr]
    have hvalid : Nat.isValidChar (c.toNat - 32) := Or.inl (by omega)
    constructor
    · intro h
      have := congrArg Char.toNat h
      rw [char_toNat_ofNat_valid _ hvalid] at this
      left
      exact char_toNat_injective (by omega)
    · intro h
      rcases h with h | h
      · subst h
        apply char_toNat_injective
        rw [char_toNat_ofNat_valid _ hvalid]
        omega
      · subst h
        omega
  · rw [if_neg hr]
    constructor
    · intro h
      right; exact h
    · intro h
      rcases h with h | h
      · subst h; omega
      · exact h

theorem toLower_eq_iff (u l c : Char)
    (h97 : 97 ≤ l.toNat) (h122 : l.toNat ≤ 122) (hu : u.toNat + 32 = l.toNat) :
    c.toLower = l ↔ (c = l ∨ c = u) := by
  unfold Char.toLower
  by_cases hr : 65 ≤ c.toNat ∧ c.toNat ≤ 90
  · rw [if_pos hr]
    have hvalid : Nat.isValidChar (c.toNat + 32) := Or.inl (by omega)
    constructor
    · intro h
      have := congrArg Char.toNat h
      rw [char_toNat_ofNat_valid _ hvalid] at this
      right
      exact char_toNat_injective (by omega)
    · intro h
      rcases h with h | h
      · subst h; omega
      · subst h
        apply char_toNat_injective
        rw [char_toNat_ofNat_valid _ hvalid]
        omega
  · rw [if_neg hr]
    constructor
    · intro h
      left; exact h
    · intro h
      rcases h with h | h
      · exact h
      · subst h; omega

/-- For a lower-case basic-latin letter `l` with upper-case partner `u`,
a character upper-cases to `u` exactly when it lower-cases to `l`. -/
theorem upper_lower_bridge (u l : Char)
    (h97 : 97 ≤ l.toNat) (h122 : l.toNat ≤ 122) (hu : u.toNat + 32 = l.toNat) (c : Char) :
    c.toUpper = u ↔ c.toLower = l :=
  (toUpper_eq_iff u l c h97 h122 hu).trans (toLower_eq_iff u l c h97 h122 hu).symm

theorem capitalize_vs_lower (u l : Char) (tail : List Char)
    (hb : ∀ c : Char, c.toUpper = u ↔ c.toLower = l) (s : List Char) :
    pyCapitalize s = u :: tail ↔ pyLower s = l :: tail := by
  cases s with
  | nil => simp [pyCapitalize, pyLower]
  | cons c cs => simp [pyCapitalize, pyLower, hb c]

theorem capitalize_eq_low_iff (s : List Char) :
    pyCapitalize s = ['L', 'o', 'w'] ↔ pyLower s = ['l', 'o', 'w'] :=
  capitalize_vs_lower 'L' 'l' ['o', 'w']
    (upper_lower_bridge 'L' 'l' (by decide) (by decide) (by decide)) s

theorem capitalize_eq_medium_iff (s : List Char) :
    pyCapitalize s = ['M', 'e', 'd', 'i', 'u', 'm']
      ↔ pyLower s = ['m', 'e', 'd', 'i', 'u', 'm'] :=
  capitalize_vs_lower 'M' 'm' ['e', 'd', 'i', 'u', 'm']
    (upper_lower_bridge 'M' 'm' (by decide) (by decide) (by decide)) s

theorem capitalize_eq_high_iff (s : List Char) :
    pyCapitalize s = ['H', 'i', 'g', 'h'] ↔ pyLower s = ['h', 'i', 'g', 'h'] :=
  capitalize_vs_lower 'H' 'h' ['i', 'g', 'h']
    (upper_lower_bridge 'H' 'h' (by decide) (by decide) (by decide)) s

theorem capitalize_eq_urgent_iff (s : List Char) :
    pyCapitalize s = ['U', 'r', 'g', 'e', 'n', 't']
      ↔ pyLower s = ['u', 'r', 'g', 'e', 'n', 't'] :=
  capitalize_vs_lower 'U' 'u' ['r', 'g', 'e', 'n', 't']
    (upper_lower_bridge 'U' 'u' (by decide) (by decide) (by decide)) s

/-- The code's validation check (`priority.capitalize() in [...]`) accepts
exactly the strings matching one of the four recognized priorities up to
letter case. -/
theorem capitalize_mem_iff (s : List Char) :
    pyCapitalize s ∈ PRIORITY_CHOICES ↔ pyLower s ∈ PRIORITY_CHOICES_LOWER := by
  simp only [PRIORITY_CHOICES, PRIORITY_CHOICES_LOWER, List.mem_cons,
    List.not_mem_nil, or_false]
  rw [capitalize_eq_low_iff, capitalize_eq_medium_iff, capitalize_eq_high_iff,
    capitalize_eq_urgent_iff]

/-! ## Order submitter (`EodmsAPI.order`, eodms.py lines 245-310) -/

/-- Python exceptions surfaced by the embedded methods. -/
inductive PyError where
  | valueError
  | connectionError
  | indexError
  | keyError
deriving DecidableEq, Repr

/-- Argument shape: `record_ids` (and `order_ids` in `download`) may be a bare scalar or a
list/tuple; the `isinstance` checks at lines 256-257 and 406-407 wrap a
bare scalar into a one-element list. -/
inductive PyArg (α : Type) where
  | scalar (a : α)
  | lst (l : List α)
deriving DecidableEq, Repr

/-- The wrapped argument the rest of the method works with. -/
def PyArg.asList : PyArg α → List α
  | .scalar a => [a]
  | .lst l => l

/-- One entry of the `items` array of an order POST body
(eodms.py lines 281-293). -/
structure OrderItemReq where
  collectionId : String
  recordId : String
  priority : List Char
  notificationEmail : String
  packagingFormat : String
deriving DecidableEq, Repr

/-- Server reply to one order-chunk POST:
`ok` is a 2xx reply whose JSON `items` carry the listed (integer) order
ids; `okBadJson` is a 2xx reply whose body fails to parse as JSON
(`JSONDecodeError`, logged and skipped, lines 303-305); `httpError` is a
non-2xx reply (raises `ConnectionError`, lines 306-308). -/
inductive OrderReply where
  | ok (items : List Int)
  | okBadJson
  | httpError
deriving DecidableEq, Repr

/-- Fuel-indexed version of the slicing loop: structural recursion on the
fuel keeps the definition kernel-computable.  The fuel only bounds the
number of loop iterations; with `fuel ≥ l.length` (always the case below,
as one iteration consumes at least one element) the fuel never runs out. -/
def orderChunksAux : Nat → List Int → List (List Int)
  | _, [] => []
  | 0, _ :: _ => []
  | fuel + 1, x :: xs =>
    (x :: xs).take EODMS_SUBMIT_HARDLIMIT
      :: orderChunksAux fuel ((x :: xs).drop EODMS_SUBMIT_HARDLIMIT)

/-- The contiguous at-most-50-element slices `record_ids[idx:idx+50]`
visited by the `while idx < n_records` loop (eodms.py lines 275-309). -/
def orderChunks (l : List Int) : List (List Int) := orderChunksAux l.length l

deriving instance DecidableEq for Except

/-- Result of the embedded `order`: the trace of issued POSTs and either
a raised exception or the Python return value (`None` for empty input,
otherwise the accumulated `order_ids` list). -/
structure OrderOutcome where
  requests : List (List OrderItemReq)
  result : Except PyError (Option (List Int))
deriving DecidableEq, Repr

/-- The chunk-submission loop (eodms.py lines 274-309).  For each slice a
POST body is built (one item per record id, each carrying the normalized
priority, the notification email and the fixed packaging format); a 2xx
reply contributes `list(set(per-chunk order ids))` — modelled with
`List.dedup`, Python's set iteration order being unspecified — appended
to the accumulator; a `JSONDecodeError` reply contributes nothing; a
non-2xx reply raises `ConnectionError`, discarding the accumulator. -/
def orderLoop (collection email : String) (normPriority : List Char)
    (replies : Nat → OrderReply) :
    List (List Int) → Nat → List Int → List (List OrderItemReq) × Except PyError (Option (List Int))
  | [], _, acc => ([], .ok (some acc))
  | chunk :: rest, i, acc =>
    let req := chunk.map fun recordId =>
      { collectionId := collection, recordId := toString recordId,
        priority := normPriority, notificationEmail := email,
        packagingFormat := "ZIP" : OrderItemReq }
    match replies i with
    | .ok items =>
      let next := orderLoop collection email normPriority replies rest (i + 1) (acc ++ items.dedup)
      (req :: next.1, next.2)
    | .okBadJson =>
      let next := orderLoop collection email normPriority replies rest (i + 1) acc
      (req :: next.1, next.2)
    | .httpError => ([req], .error .connectionError)

/-- Shallow embedding of `EodmsAPI.order` (eodms.py lines 245-310):
wrap a scalar argument (lines 256-257), validate the priority before any
network call (lines 258-259), return `None` on empty input (lines
260-263), else run the chunk loop. -/
def order (collection email : String) (recordIds : PyArg Int) (priority : List Char)
    (replies : Nat → OrderReply) : OrderOutcome :=
  let ids := recordIds.asList
  if pyCapitalize priority ∉ PRIORITY_CHOICES then
    { requests := [], result := .error .valueError }
  else if ids.length < 1 then
    { requests := [], result := .ok none }
  else
    let lp := orderLoop collection email (pyCapitalize priority) replies (orderChunks ids) 0 []
    { requests := lp.1, result := lp.2 }

theorem orderChunksAux_length :
    ∀ (fuel : Nat) (l : List Int), l.length ≤ fuel →
      (orderChunksAux fuel l).length
        = (l.length + EODMS_SUBMIT_HARDLIMIT - 1) / EODMS_SUBMIT_HARDLIMIT := by
  intro fuel
  induction fuel with
  | zero =>
    intro l hl
    match l with
    | [] => simp [orderChunksAux, EODMS_SUBMIT_HARDLIMIT]
    | x :: xs => simp at hl
  | succ fuel ih =>
    intro l hl
    match l with
    | [] => simp [orderChunksAux, EODMS_SUBMIT_HARDLIMIT]
    | x :: xs =>
      have hd : ((x :: xs).drop EODMS_SUBMIT_HARDLIMIT).length ≤ fuel := by
        simp only [List.length_drop, List.length_cons] at *
        simp only [EODMS_SUBMIT_HARDLIMIT]
        omega
      rw [orderChunksAux, List.length_cons, ih _ hd]
      simp only [List.length_drop, List.length_cons, EODMS_SUBMIT_HARDLIMIT]
      omega

theorem orderChunksAux_le (fuel : Nat) :
    ∀ (l : List Int), ∀ c ∈ orderChunksAux fuel l, c.length ≤ EODMS_SUBMIT_HARDLIMIT := by
  induction fuel with
  | zero =>
    intro l c hc
    match l with
    | [] => simp [orderChunksAux] at hc
    | x :: xs => simp [orderChunksAux] at hc
  | succ fuel ih =>
    intro l c hc
    match l with
    | [] => simp [orderChunksAux] at hc
    | x :: xs =>
      rw [orderChunksAux] at hc
      rcases List.mem_cons.mp hc with h | h
      · subst h
        simp [List.length_take]
      · exact ih _ c h

theorem orderChunksAux_join :
    ∀ (fuel : Nat) (l : List Int), l.length ≤ fuel → (orderChunksAux fuel l).flatten = l := by
  intro fuel
  induction fuel with
  | zero =>
    intro l hl
    match l with
    | [] => simp [orderChunksAux]
    | x :: xs => simp at hl
  | succ fuel ih =>
    intro l hl
    match l with
    | [] => simp [orderChunksAux]
    | x :: xs =>
      have hd : ((x :: xs).drop EODMS_SUBMIT_HARDLIMIT).length ≤ fuel := by
        simp only [List.length_drop, List.length_cons] at *
        simp only [EODMS_SUBMIT_HARDLIMIT]
        omega
      rw [orderChunksAux, List.flatten_cons, ih _ hd, List.take_append_drop]

theorem orderChunks_length (l : List Int) :
    (orderChunks l).length
      = (l.length + EODMS_SUBMIT_HARDLIMIT - 1) / EODMS_SUBMIT_HARDLIMIT :=
  orderChunksAux_length l.length l (Nat.le_refl _)

theorem orderChunks_le (l : List Int) :
    ∀ c ∈ orderChunks l, c.length ≤ EODMS_SUBMIT_HARDLIMIT :=
  orderChunksAux_le l.length l

theorem orderChunks_join (l : List Int) : (orderChunks l).flatten = l :=
  orderChunksAux_join l.length l (Nat.le_refl _)

/-- The flat order-id sequence accumulated by a fully-successful run of
the chunk loop starting at chunk index `i` over `n` chunks: the
concatenation, chunk by chunk, of each chunk reply's ids with duplicates
collapsed within that chunk only. -/
def okResult (items : Nat → List Int) (i : Nat) : Nat → List Int
  | 0 => []
  | n + 1 => (items i).dedup ++ okResult items (i + 1) n

theorem okResult_eq_join (items : Nat → List Int) :
    ∀ (n i : Nat),
      okResult items i n = ((List.range n).map (fun k => (items (i + k)).dedup)).flatten := by
  intro n
  induction n with
  | zero => intro i; simp [okResult]
  | succ n ih =>
    intro i
    rw [okResult, List.range_succ_eq_map]
    simp only [List.map_cons, List.map_map, List.flatten_cons, Nat.add_zero]
    rw [ih (i + 1)]
    have hmap : List.map (fun k => (items (i + 1 + k)).dedup) (List.range n)
        = List.map ((fun k => (items (i + k)).dedup) ∘ Nat.succ) (List.range n) := by
      apply List.map_congr_left
      intro k _
      simp only [Function.comp]
      rw [show i + Nat.succ k = i + 1 + k by omega]
    rw [hmap]

/-- A fully-successful chunk loop issues one POST per chunk (each POST
carrying one item per record id of its chunk) and returns the
accumulator followed by the per-chunk deduplicated ids. -/
theorem orderLoop_all_ok (collection email : String) (p : List Char) (items : Nat → List Int)
    (chunks : List (List Int)) :
    ∀ (i : Nat) (acc : List Int),
      orderLoop collection email p (fun j => .ok (items j)) chunks i acc
        = (chunks.map (fun ch => ch.map fun recordId =>
            { collectionId := collection, recordId := toString recordId,
              priority := p, notificationEmail := email,
              packagingFormat := "ZIP" : OrderItemReq }),
           .ok (some (acc ++ okResult items i chunks.length))) := by
  induction chunks with
  | nil => intro i acc; simp [orderLoop, okResult]
  | cons ch rest ih =>
    intro i acc
    rw [orderLoop]
    simp only [ih (i + 1) (acc ++ (items i).dedup), List.map_cons, List.length_cons]
    rw [okResult]
    simp [List.append_assoc]

/-- Under any sequence of chunk replies, every item of every POST issued
by the chunk loop carries the priority the loop was given. -/
theorem orderLoop_priority (collection email : String) (p : List Char)
    (replies : Nat → OrderReply) (chunks : List (List Int)) :
    ∀ (i : Nat) (acc : List Int) (req : List OrderItemReq) (it : OrderItemReq),
      req ∈ (orderLoop collection email p replies chunks i acc).1 →
      it ∈ req → it.priority = p := by
  induction chunks with
  | nil => intro i acc req it hreq _; simp [orderLoop] at hreq
  | cons ch rest ih =>
    intro i acc req it hreq hit
    rw [orderLoop] at hreq
    match hrep : replies i with
    | .ok items =>
      rw [hrep] at hreq
      rcases List.mem_cons.mp hreq with h | h
      · subst h
        obtain ⟨rid, _, hmk⟩ := List.mem_map.mp hit
        rw [← hmk]
      · exact ih (i + 1) (acc ++ items.dedup) req it h hit
    | .okBadJson =>
      rw [hrep] at hreq
      rcases List.mem_cons.mp hreq with h | h
      · subst h
        obtain ⟨rid, _, hmk⟩ := List.mem_map.mp hit
        rw [← hmk]
      · exact ih (i + 1) acc req it h hit
    | .httpError =>
      rw [hrep] at hreq
      rcases List.mem_cons.mp hreq with h | h
      · subst h
        obtain ⟨rid, _, hmk⟩ := List.mem_map.mp hit
        rw [← hmk]
      · simp at h

/-- The chunk loop can only raise `ConnectionError`, never `ValueError`:
priority validation happens before any chunk is submitted. -/
theorem orderLoop_no_valueError (collection email : String) (p : List Char)
    (replies : Nat → OrderReply) (chunks : List (List Int)) :
    ∀ (i : Nat) (acc : List Int),
      (orderLoop collection email p replies chunks i acc).2 ≠ .error .valueError := by
  induction chunks with
  | nil => intro i acc; simp [orderLoop]
  | cons ch rest ih =>
    intro i acc
    rw [orderLoop]
    match hrep : replies i with
    | .ok items => exact ih (i + 1) (acc ++ items.dedup)
    | .okBadJson => exact ih (i + 1) acc
    | .httpError => simp

/-- Fully-successful `order` runs reduced to their chunk structure. -/
theorem order_all_ok_eq (collection email : String) (ids : List Int)
    (priority : List Char) (items : Nat → List Int)
    (hne : ids ≠ []) (hp : pyCapitalize priority ∈ PRIORITY_CHOICES) :
    order collection email (PyArg.lst ids) priority (fun j => .ok (items j))
      = { requests := (orderChunks ids).map (fun ch => ch.map fun recordId =>
            { collectionId := collection, recordId := toString recordId,
              priority := pyCapitalize priority, notificationEmail := email,
              packagingFormat := "ZIP" : OrderItemReq }),
          result := .ok (some (okResult items 0 (orderChunks ids).length)) } := by
  rw [order]
  simp only [PyArg.asList]
  rw [if_neg (not_not_intro hp)]
  rw [if_neg (Nat.not_lt.mpr (List.length_pos.mpr hne))]
  rw [orderLoop_all_ok collection email (pyCapitalize priority) items (orderChunks ids) 0 []]
  simp

/-- C2 (amended): For every record-id list of length `N ≥ 1` with a
valid priority and a 2xx reply for every chunk, the submitter issues
`⌈N / 50⌉` POSTs over contiguous slices of the input, each of at most 50
items; the returned flat sequence is the concatenation of the per-chunk
reply ids with duplicates collapsed *within* each chunk only, so each
chunk's contribution is duplicate-free, but an identifier produced by
two different chunks appears once per chunk in the returned sequence. -/
theorem order_chunking (collection email : String) (ids : List Int)
    (priority : List Char) (items : Nat → List Int)
    (hne : ids ≠ []) (hp : pyCapitalize priority ∈ PRIORITY_CHOICES) :
    (order collection email (PyArg.lst ids) priority (fun j => .ok (items j))).requests.length
        = (ids.length + EODMS_SUBMIT_HARDLIMIT - 1) / EODMS_SUBMIT_HARDLIMIT
    ∧ (∀ req ∈ (order collection email (PyArg.lst ids) priority
          (fun j => .ok (items j))).requests, req.length ≤ EODMS_SUBMIT_HARDLIMIT)
    ∧ ((order collection email (PyArg.lst ids) priority (fun j => .ok (items j))).requests.map
        (fun req => req.map OrderItemReq.recordId)).flatten = ids.map toString
    ∧ (order collection email (PyArg.lst ids) priority (fun j => .ok (items j))).result
        = .ok (some (okResult items 0 (orderChunks ids).length))
    ∧ (∀ k, (items k).dedup.Nodup) := by
  rw [order_all_ok_eq collection email ids priority items hne hp]
  refine ⟨?_, ?_, ?_, rfl, fun k => List.nodup_dedup _⟩
  · simp [orderChunks_length]
  · intro req hreq
    obtain ⟨ch, hch, hmk⟩ := List.mem_map.mp hreq
    rw [← hmk, List.length_map]
    exact orderChunks_le ids ch hch
  · simp only [List.map_map]
    have : ((fun req => List.map OrderItemReq.recordId req) ∘ fun ch =>
        ch.map fun recordId =>
          { collectionId := collection, recordId := toString recordId,
            priority := pyCapitalize priority, notificationEmail := email,
            packagingFormat := "ZIP" : OrderItemReq })
        = fun ch : List Int => ch.map toString := by
      funext ch
      simp [List.map_map, Function.comp]
    rw [this, ← List.map_flatten, orderChunks_join]

/-- Witness for C2 (amended): three record ids form a single chunk whose
reply repeats id 5; the returned sequence is the deduplicated `[5]`. -/
theorem order_chunking_witness :
    (order "Radarsat2" "nobody" (PyArg.lst [1, 2, 3]) ['M', 'e', 'd', 'i', 'u', 'm']
        (fun _ => .ok [5, 5])).requests.length
        = (([1, 2, 3] : List Int).length + EODMS_SUBMIT_HARDLIMIT - 1) / EODMS_SUBMIT_HARDLIMIT
    ∧ (∀ req ∈ (order "Radarsat2" "nobody" (PyArg.lst [1, 2, 3]) ['M', 'e', 'd', 'i', 'u', 'm']
          (fun _ => .ok [5, 5])).requests, req.length ≤ EODMS_SUBMIT_HARDLIMIT)
    ∧ ((order "Radarsat2" "nobody" (PyArg.lst [1, 2, 3]) ['M', 'e', 'd', 'i', 'u', 'm']
          (fun _ => .ok [5, 5])).requests.map
        (fun req => req.map OrderItemReq.recordId)).flatten = ([1, 2, 3] : List Int).map toString
    ∧ (order "Radarsat2" "nobody" (PyArg.lst [1, 2, 3]) ['M', 'e', 'd', 'i', 'u', 'm']
          (fun _ => .ok [5, 5])).result
        = .ok (some (okResult (fun _ => [5, 5]) 0 (orderChunks [1, 2, 3]).length))
    ∧ (∀ k : Nat, ((fun _ : Nat => ([5, 5] : List Int)) k).dedup.Nodup) :=
  order_chunking "Radarsat2" "nobody" [1, 2, 3] ['M', 'e', 'd', 'i', 'u', 'm']
    (fun _ => [5, 5]) (by decide) (by decide)

/-- Counterexample to C2 as stated: 51 record ids are split into chunks
of 50 and 1; both chunk replies carry order id 7, and the returned flat
sequence is `[7, 7]` — the duplicate across chunks is *not* collapsed. -/
theorem order_duplicate_across_chunks_cex :
    (order "Radarsat2" "nobody" (PyArg.lst ((List.range 51).map (fun n => (n : Int))))
        ['M', 'e', 'd', 'i', 'u', 'm'] (fun _ => OrderReply.ok [7])).result
      = Except.ok (some [7, 7])
    ∧ ¬ ([7, 7] : List Int).Nodup := by
  constructor
  · decide
  · decide

/-- C6: A priority failing the case-insensitive match against
`Low`/`Medium`/`High`/`Urgent` makes `order` raise `ValueError` before
any POST is issued; a priority matching one of the four up to case
passes validation, every submitted item carries the capitalized
priority, and that capitalization is exactly the matched choice. -/
theorem order_priority_case (collection email : String) (recordIds : PyArg Int)
    (priority : List Char) (replies : Nat → OrderReply) :
    (pyLower priority ∉ PRIORITY_CHOICES_LOWER →
      order collection email recordIds priority replies
        = { requests := [], result := .error .valueError })
    ∧ (pyLower priority ∈ PRIORITY_CHOICES_LOWER →
        (order collection email recordIds priority replies).result ≠ .error .valueError
        ∧ (∀ req ∈ (order collection email recordIds priority replies).requests,
            ∀ it ∈ req, it.priority = pyCapitalize priority)
        ∧ (∀ t ∈ PRIORITY_CHOICES, pyLower priority = pyLower t → pyCapitalize priority = t)) := by
  constructor
  · intro h
    have hnot : pyCapitalize priority ∉ PRIORITY_CHOICES := fun hm =>
      h ((capitalize_mem_iff priority).mp hm)
    rw [order, if_pos hnot]
  · intro h
    have hmem : pyCapitalize priority ∈ PRIORITY_CHOICES := (capitalize_mem_iff priority).mpr h
    refine ⟨?_, ?_, ?_⟩
    · rw [order, if_neg (not_not_intro hmem)]
      by_cases hlen : recordIds.asList.length < 1
      · rw [if_pos hlen]
        simp
      · rw [if_neg hlen]
        exact orderLoop_no_valueError collection email (pyCapitalize priority) replies
          (orderChunks recordIds.asList) 0 []
    · intro req hreq it hit
      rw [order, if_neg (not_not_intro hmem)] at hreq
      by_cases hlen : recordIds.asList.length < 1
      · rw [if_pos hlen] at hreq
        simp at hreq
      · rw [if_neg hlen] at hreq
        exact orderLoop_priority collection email (pyCapitalize priority) replies
          (orderChunks recordIds.asList) 0 [] req it hreq hit
    · intro t ht heq
      simp only [PRIORITY_CHOICES, List.mem_cons, List.not_mem_nil, or_false] at ht
      rcases ht with h1 | h2 | h3 | h4
      · subst h1
        rw [show pyLower ['L', 'o', 'w'] = ['l', 'o', 'w'] from by decide] at heq
        exact (capitalize_eq_low_iff priority).mpr heq
      · subst h2
        rw [show pyLower ['M', 'e', 'd', 'i', 'u', 'm'] = ['m', 'e', 'd', 'i', 'u', 'm']
          from by decide] at heq
        exact (capitalize_eq_medium_iff priority).mpr heq
      · subst h3
        rw [show pyLower ['H', 'i', 'g', 'h'] = ['h', 'i', 'g', 'h'] from by decide] at heq
        exact (capitalize_eq_high_iff priority).mpr heq
      · subst h4
        rw [show pyLower ['U', 'r', 'g', 'e', 'n', 't'] = ['u', 'r', 'g', 'e', 'n', 't']
          from by decide] at heq
        exact (capitalize_eq_urgent_iff priority).mpr heq

/-- Witness for C6: `"rush"` is rejected with no POST issued; `"urgent"`
passes and every submitted item carries `pyCapitalize "urgent"`
(that is, `"Urgent"`). -/
theorem order_priority_case_witness :
    (order "Radarsat2" "nobody" (PyArg.lst [42]) ['r', 'u', 's', 'h'] (fun _ => .ok [])
        = { requests := [], result := .error .valueError })
    ∧ ((order "Radarsat2" "nobody" (PyArg.lst [42]) ['u', 'r', 'g', 'e', 'n', 't']
          (fun _ => .ok [])).result ≠ .error .valueError
        ∧ (∀ req ∈ (order "Radarsat2" "nobody" (PyArg.lst [42]) ['u', 'r', 'g', 'e', 'n', 't']
              (fun _ => .ok [])).requests,
            ∀ it ∈ req, it.priority = pyCapitalize ['u', 'r', 'g', 'e', 'n', 't'])
        ∧ (∀ t ∈ PRIORITY_CHOICES,
            pyLower ['u', 'r', 'g', 'e', 'n', 't'] = pyLower t →
            pyCapitalize ['u', 'r', 'g', 'e', 'n', 't'] = t)) :=
  ⟨(order_priority_case "Radarsat2" "nobody" (PyArg.lst [42]) ['r', 'u', 's', 'h']
      (fun _ => .ok [])).1 (by decide),
   (order_priority_case "Radarsat2" "nobody" (PyArg.lst [42]) ['u', 'r', 'g', 'e', 'n', 't']
      (fun _ => .ok [])).2 (by decide)⟩

/-- Counterexample to C7 as stated: with the default priority and a
zero-length record-id list, `order` returns Python `None` — not an empty
list. -/
theorem order_empty_input_cex :
    (order "Radarsat2" "nobody" (PyArg.lst []) ['M', 'e', 'd', 'i', 'u', 'm']
        (fun _ => OrderReply.ok [])).result = Except.ok none
    ∧ ((Except.ok none : Except PyError (Option (List Int)))
        ≠ Except.ok (some ([] : List Int))) := by
  constructor
  · decide
  · decide

/-- C7 (amended): For every call to `order` with a zero-length
record-id list and a recognized priority, the method logs a warning and
returns `None` (not an empty list), without raising and without issuing
any POST. -/
theorem order_empty_input_returns_none (collection email : String) (priority : List Char)
    (replies : Nat → OrderReply) (h : pyCapitalize priority ∈ PRIORITY_CHOICES) :
    order collection email (PyArg.lst []) priority replies
      = { requests := [], result := .ok none } := by
  rw [order, if_neg (not_not_intro h)]
  rfl

/-- Witness for C7 (amended): the default priority `"Medium"` with an
empty record-id list. -/
theorem order_empty_input_returns_none_witness :
    order "Radarsat2" "nobody" (PyArg.lst []) ['M', 'e', 'd', 'i', 'u', 'm']
        (fun _ => OrderReply.ok [])
      = { requests := [], result := .ok none } :=
  order_empty_input_returns_none "Radarsat2" "nobody" ['M', 'e', 'd', 'i', 'u', 'm']
    (fun _ => OrderReply.ok []) (by decide)

/-! ## Metadata enricher (`EodmsAPI._fetch_metadata` and
`_fetch_single_record_metadata`, eodms.py lines 162-243) -/

/-- A detail-endpoint reply for one record URL: HTTP success flag and the
parsed body schema the scraper touches — top-level fields, the `metadata`
array of `[key, value]` pairs, the thumbnail URL and the geometry (kept
kept abstract: the reprojection collaborator is out of scope). -/
structure DetailResponse where
  ok : Bool
  top : List (String × String)
  metadata : List (String × String)
  thumbnailUrl : String
  geometry : String
deriving DecidableEq, Repr

/-- Python `[f[1] for f in response['metadata'] if f[0] == k][0]`
(eodms.py lines 227-229): the first value under key `k` in the metadata
array, raising `IndexError` when there is none. -/
def metadataArrayFirst (arr : List (String × String)) (k : String) : Except PyError String :=
  match (arr.filter (fun f => f.1 == k)).map (fun f => f.2) with
  | [] => .error .indexError
  | v :: _ => .ok v

/-- Python `value.split('/')[-1]` (eodms.py line 235). -/
def lastPathSegment (v : String) : String := (v.splitOn "/").getLastD v

/-- Shallow embedding of `_fetch_single_record_metadata` (lines 205-243).
A non-2xx reply leaves `metadata = {}` untouched and returns it (the
`if r.ok` body is skipped).  On a 2xx reply each requested key is read
from the top level, falling back to the first match in the `metadata`
array (`IndexError` when absent from both); for the RCM collection a
`uuid` is derived from the `Metadata Full Name` entry; the thumbnail URL
and geometry are appended.  The record is an insertion-ordered
association list, mirroring the Python dict. -/
def fetchSingleRecordMetadata (collection : String) (resp : DetailResponse)
    (keys : List String) : Except PyError (List (String × String)) :=
  if resp.ok then do
    let base ← keys.mapM (fun k =>
      match resp.top.find? (fun f => f.1 == k) with
      | some f => Except.ok (k, f.2)
      | none => do
        let v ← metadataArrayFirst resp.metadata k
        Except.ok (k, v))
    let withUuid ←
      if collection == "RCMImageProducts" then do
        let v ← metadataArrayFirst resp.metadata "Metadata Full Name"
        Except.ok (base ++ [("uuid", lastPathSegment v)])
      else Except.ok base
    Except.ok (withUuid ++ [("thumbnailUrl", resp.thumbnailUrl), ("geometry", resp.geometry)])
  else Except.ok []

/-- What `_fetch_metadata` hands to the result normalizer: the
`{k: [] for k in metadata_fields}` empty table for a zero-hit search, or
one record per hit. -/
inductive EnrichOutput where
  | emptyTable (keys : List String)
  | records (l : List (List (String × String)))
deriving DecidableEq, Repr

/-- The fan-in of the thread-pool map (lines 187-202):
`executor.map` yields results in the order of its input iterable
regardless of completion order, and an exception raised inside a worker
is re-raised when its slot is reached, aborting the whole collection. -/
def collectResults (collection : String) (server : String → DetailResponse)
    (keys : List String) : List String → Except PyError (List (List (String × String)))
  | [] => .ok []
  | u :: us =>
    match fetchSingleRecordMetadata collection (server u) keys with
    | .error e => .error e
    | .ok m =>
      match collectResults collection server keys us with
      | .error e => .error e
      | .ok ms => .ok (m :: ms)

/-- Shallow embedding of `_fetch_metadata` (lines 162-203), up to the
final `metadata_to_gdf` call (the out-of-scope normalizer collaborator):
zero hits produce the empty table, otherwise one detail GET per
`thisRecordUrl` is fanned out and collected in input order. -/
def fetchMetadata (collection : String) (queryResults : List String)
    (server : String → DetailResponse) (keys : List String) : Except PyError EnrichOutput :=
  if queryResults.length = 0 then .ok (.emptyTable keys)
  else (collectResults collection server keys queryResults).map .records

/-- A successful collection has one record per input URL, at the same
index. -/
theorem collectResults_ok (collection : String) (server : String → DetailResponse)
    (keys : List String) :
    ∀ (us : List String) (l : List (List (String × String))),
      collectResults collection server keys us = .ok l →
      l.length = us.length
      ∧ ∀ i : Nat, l[i]? = (us[i]?).bind
          (fun u => (fetchSingleRecordMetadata collection (server u) keys).toOption) := by
  intro us
  induction us with
  | nil =>
    intro l hl
    simp only [collectResults, Except.ok.injEq] at hl
    subst hl
    exact ⟨rfl, fun i => by simp⟩
  | cons u us ih =>
    intro l hl
    rw [collectResults] at hl
    match hm : fetchSingleRecordMetadata collection (server u) keys with
    | .error e => rw [hm] at hl; exact absurd hl (by simp)
    | .ok m =>
      rw [hm] at hl
      match hc : collectResults collection server keys us with
      | .error e => rw [hc] at hl; exact absurd hl (by simp)
      | .ok ms =>
        rw [hc] at hl
        simp only [Except.ok.injEq] at hl
        subst hl
        obtain ⟨hlen, hidx⟩ := ih ms hc
        refine ⟨by simp [hlen], ?_⟩
        intro i
        match i with
        | 0 => simp [hm, Except.toOption]
        | i + 1 => simpa using hidx i

/-- C5: For every non-empty search result, the enricher's output has
one metadata record per input detail URL, and the record at each index
is the one fetched for the URL at the same index (the fan-in is
index-aligned, not completion-ordered). -/
theorem enrich_order_preserved (collection : String) (urls : List String)
    (server : String → DetailResponse) (keys : List String)
    (l : List (List (String × String)))
    (hne : urls ≠ [])
    (hok : fetchMetadata collection urls server keys = .ok (.records l)) :
    l.length = urls.length
    ∧ ∀ i : Nat, l[i]? = (urls[i]?).bind
        (fun u => (fetchSingleRecordMetadata collection (server u) keys).toOption) := by
  rw [fetchMetadata, if_neg (by simpa using hne)] at hok
  match hc : collectResults collection server keys urls with
  | .error e => rw [hc] at hok; exact absurd hok (by simp [Except.map])
  | .ok ms =>
    rw [hc] at hok
    simp only [Except.map, Except.ok.injEq, EnrichOutput.records.injEq] at hok
    subst hok
    exact collectResults_ok collection server keys urls ms hc

/-- Witness for C5: two URLs against a server answering with a top-level
field; both records come back, in input order. -/
theorem enrich_order_preserved_witness :
    (([[("k", "v1"), ("thumbnailUrl", "t"), ("geometry", "g")],
       [("k", "v2"), ("thumbnailUrl", "t"), ("geometry", "g")]]
        : List (List (String × String))).length = (["u1", "u2"] : List String).length)
    ∧ ∀ i : Nat,
        ([[("k", "v1"), ("thumbnailUrl", "t"), ("geometry", "g")],
          [("k", "v2"), ("thumbnailUrl", "t"), ("geometry", "g")]]
          : List (List (String × String)))[i]?
          = ((["u1", "u2"] : List String)[i]?).bind
              (fun u => (fetchSingleRecordMetadata "Radarsat2"
                ((fun v => { ok := true,
                             top := [("k", if v == "u1" then "v1" else "v2")],
                             metadata := [], thumbnailUrl := "t",
                             geometry := "g" : DetailResponse }) u)
                ["k"]).toOption) :=
  enrich_order_preserved "Radarsat2" ["u1", "u2"]
    (fun v => { ok := true, top := [("k", if v == "u1" then "v1" else "v2")],
                metadata := [], thumbnailUrl := "t", geometry := "g" })
    ["k"]
    [[("k", "v1"), ("thumbnailUrl", "t"), ("geometry", "g")],
     [("k", "v2"), ("thumbnailUrl", "t"), ("geometry", "g")]]
    (by decide) (by decide)

/-- When every per-URL fetch returns a record, the whole batch succeeds
with one record per input. -/
theorem collectResults_all_ok (collection : String) (server : String → DetailResponse)
    (keys : List String) :
    ∀ us : List String,
      (∀ u ∈ us, ∃ m, fetchSingleRecordMetadata collection (server u) keys = .ok m) →
      ∃ l, collectResults collection server keys us = .ok l ∧ l.length = us.length := by
  intro us
  induction us with
  | nil => intro _; exact ⟨[], rfl, rfl⟩
  | cons u us ih =>
    intro h
    obtain ⟨m, hm⟩ := h u (List.mem_cons_self u us)
    obtain ⟨l, hl, hlen⟩ := ih (fun v hv => h v (List.mem_cons_of_mem u hv))
    exact ⟨m :: l, by rw [collectResults, hm, hl], by simp [hlen]⟩

/-- C8 (amended): A fetch whose HTTP response is unsuccessful yields
an empty record for its item (the `if r.ok` body is skipped and the
empty dict is returned), and such failures never abandon the batch:
whenever every per-item fetch produces a record — empty records from
HTTP-failed fetches included — the enrichment yields exactly one record
per input.  (An HTTP-successful fetch lacking a requested field both at
top level and in the metadata array instead raises `IndexError` and
aborts the whole batch, as the separate counterexample shows.) -/
theorem enrich_failed_fetch_degrades (collection : String) (keys : List String)
    (server : String → DetailResponse) (urls : List String) :
    (∀ resp : DetailResponse, resp.ok = false →
      fetchSingleRecordMetadata collection resp keys = .ok [])
    ∧ (urls ≠ [] →
        (∀ u ∈ urls, ∃ m, fetchSingleRecordMetadata collection (server u) keys = .ok m) →
        ∃ l, fetchMetadata collection urls server keys = .ok (.records l)
          ∧ l.length = urls.length) := by
  constructor
  · intro resp h
    rw [fetchSingleRecordMetadata, if_neg (by simp [h])]
  · intro hne hall
    obtain ⟨l, hl, hlen⟩ := collectResults_all_ok collection server keys urls hall
    refine ⟨l, ?_, hlen⟩
    rw [fetchMetadata, if_neg (by simpa using hne), hl]
    rfl

/-- Witness for C8 (amended): a batch of two URLs where the first fetch
fails at the HTTP level (yielding the empty record) and the second
succeeds still produces one record per input. -/
theorem enrich_failed_fetch_degrades_witness :
    (fetchSingleRecordMetadata "Radarsat2"
        { ok := false, top := [], metadata := [], thumbnailUrl := "", geometry := "" } ["k"]
      = .ok [])
    ∧ (∃ l, fetchMetadata "Radarsat2" ["a", "b"]
          (fun u => if u == "a"
            then { ok := false, top := [], metadata := [], thumbnailUrl := "", geometry := "" }
            else { ok := true, top := [("k", "v")], metadata := [], thumbnailUrl := "t",
                   geometry := "g" })
          ["k"] = .ok (.records l)
        ∧ l.length = (["a", "b"] : List String).length) :=
  ⟨(enrich_failed_fetch_degrades "Radarsat2" ["k"]
      (fun u => if u == "a"
        then { ok := false, top := [], metadata := [], thumbnailUrl := "", geometry := "" }
        else { ok := true, top := [("k", "v")], metadata := [], thumbnailUrl := "t",
               geometry := "g" })
      ["a", "b"]).1
      { ok := false, top := [], metadata := [], thumbnailUrl := "", geometry := "" } rfl,
   (enrich_failed_fetch_degrades "Radarsat2" ["k"]
      (fun u => if u == "a"
        then { ok := false, top := [], metadata := [], thumbnailUrl := "", geometry := "" }
        else { ok := true, top := [("k", "v")], metadata := [], thumbnailUrl := "t",
               geometry := "g" })
      ["a", "b"]).2 (by decide)
      (by
        intro u hu
        rcases List.mem_cons.mp hu with h | h
        · subst h; exact ⟨[], rfl⟩
        · rcases List.mem_cons.mp h with h2 | h2
          · subst h2; exact ⟨_, rfl⟩
          · simp at h2)⟩

/-- Counterexample to C8 as stated: an HTTP-successful detail reply that
lacks the requested field `"foo"` both at top level and in the metadata
array makes the single fetch raise `IndexError`, and the whole batch
aborts with that error instead of producing a record for every input. -/
theorem enrich_missing_field_aborts_cex :
    fetchSingleRecordMetadata "Radarsat2"
        { ok := true, top := [], metadata := [], thumbnailUrl := "t", geometry := "g" }
        ["foo"]
      = .error .indexError
    ∧ fetchMetadata "Radarsat2" ["u"]
        (fun _ => { ok := true, top := [], metadata := [], thumbnailUrl := "t", geometry := "g" })
        ["foo"]
      = .error .indexError := by
  constructor
  · decide
  · decide

/-! ## Download orchestrator (`_extract_download_metadata`,
`_download_items` and `download`, eodms.py lines 312-488) -/

/-- The local filesystem, as the code observes it: `os.path.exists` and
`os.stat(...).st_size` — a map from paths to optional byte sizes. -/
abbrev FS := String → Option Nat

/-- What one streamed GET of a remote file yields: the `content-type`
header and the bytes the stream delivers (the written file's size). -/
structure RemoteFile where
  contentType : String
  bytes : Nat
deriving DecidableEq, Repr

/-- Observable events of the `_download_items` loop: a local file removal
(`os.remove`), an issued streamed GET (a network transfer), and a
completed write of the streamed bytes. -/
inductive DlEvent where
  | removed (path : String)
  | httpGet (url : String)
  | wrote (path : String) (bytes : Nat)
deriving DecidableEq, Repr

/-- Is the event a network transfer? -/
def isHttpGet : DlEvent → Bool
  | .httpGet _ => true
  | _ => false

/-- Does the first list start with the second? -/
def startsWith : List Char → List Char → Bool
  | _, [] => true
  | [], _ :: _ => false
  | c :: cs, p :: ps => c = p && startsWith cs ps

/-- Fuel-indexed worker for `pySplit`; the fuel (the input length) only
bounds the iteration count, each step consuming at least one character. -/
def pySplitAux (sep : List Char) : Nat → List Char → List Char → List (List Char)
  | _, [], cur => [cur.reverse]
  | 0, s, cur => [cur.reverse ++ s]
  | fuel + 1, c :: cs, cur =>
    if startsWith (c :: cs) sep then
      cur.reverse :: pySplitAux sep fuel ((c :: cs).drop sep.length) []
    else
      pySplitAux sep fuel cs (c :: cur)

/-- Python `str.split(sep)` for a non-empty separator: split on every
non-overlapping occurrence, left to right. -/
def pySplit (sep s : List Char) : List (List Char) := pySplitAux sep s.length s []

/-- The `EODMSHTMLFilter` parsing (eodms.py lines 603-611) run by
`_extract_download_metadata`: concatenates the data outside `<...>` tags.
The flag tracks being inside a tag. -/
def stripTags : List Char → Bool → List Char
  | [], _ => []
  | c :: cs, true => if c = '>' then stripTags cs false else stripTags cs true
  | c :: cs, false => if c = '<' then stripTags cs true else c :: stripTags cs false

/-- Python `os.path.basename` (POSIX): the part after the last `/`. -/
def pyBasename (s : String) : String :=
  String.mk ((pySplit ['/'] s.toList).getLastD s.toList)

/-- Python `os.path.join(dir, file)` for the shapes used here. -/
def pathJoin (dir file : String) : String :=
  if dir = "" then file
  else if dir.toList.getLast? = some '/' then dir ++ file
  else dir ++ "/" ++ file

/-- An order item of the status-poll reply (`r.json()['items']` entries),
with the fields the orchestrator reads: the owning order id, the status
string, the HTML-encoded `destinations[...]['stringValue']` strings and
the `manifest` mapping of hashed path keys to byte sizes (insertion
ordered, as a Python dict). -/
structure OrderItemStatus where
  orderId : Int
  status : String
  destinations : List String
  manifest : List (String × Nat)
deriving DecidableEq, Repr

/-- One server reply to a status-poll GET for one order id. -/
inductive StatusReply where
  | down
  | httpError
  | ok (items : List OrderItemStatus)
deriving DecidableEq, Repr

/-- Shallow embedding of `_extract_download_metadata` (lines 312-340):
strip the HTML markup of the first destination (IndexError on none),
drop a trailing `&file=` query, take the *last* manifest key
(`list(keys).pop()`, IndexError on an empty manifest), and if the URL's
tail after the manifest hash does not reproduce the key, rebuild the URL
from the key; the expected size is the manifest value under that key.
`str.split('')` raises `ValueError`, reproduced for an empty hash. -/
def extractDownloadMetadata (item : OrderItemStatus) : Except PyError (String × Nat) :=
  match item.destinations with
  | [] => .error .indexError
  | dest :: _ =>
    let url0 := stripTags dest.toList false
    let url1 := (pySplit ("&file=".toList) url0).headD url0
    match (item.manifest.map (fun f => f.1)).getLast? with
    | none => .error .indexError
    | some manifestKey =>
      let manifestHash := (pySplit ['/'] manifestKey.toList).headD []
      if manifestHash = [] then .error .valueError
      else
        let splitUrl := pySplit manifestHash url1
        let url2 :=
          if manifestHash ++ splitUrl.getLastD [] = manifestKey.toList then url1
          else splitUrl.headD [] ++ manifestKey.toList
        match item.manifest.find? (fun f => f.1 == manifestKey) with
        | none => .error .keyError
        | some f => .ok (String.mk url2, f.2)

/-- The streamed fetch of lines 373-392: one GET is always issued; a
non-zip `content-type` is skipped with an error log (nothing written),
otherwise the streamed bytes are written to the local path.  `evs` are
the events already produced for this item. -/
def fetchStep (dl : String → RemoteFile) (fs : FS) (remote path : String)
    (evs : List DlEvent) : FS × List DlEvent :=
  let f := dl remote
  if f.contentType ≠ "application/zip" then
    (fs, evs ++ [DlEvent.httpGet remote])
  else
    (fun p => if p = path then some f.bytes else fs p,
     evs ++ [DlEvent.httpGet remote, DlEvent.wrote path f.bytes])

/-- One iteration of the `_download_items` loop (lines 360-392) for a
single `(remote url, expected size, local path)` triple: an existing
local file of the expected size is skipped outright; an existing file of
a different size is removed and then fetched; a missing file is
fetched. -/
def downloadItemStep (dl : String → RemoteFile) (fs : FS)
    (remote : String) (expectedSize : Nat) (path : String) : FS × List DlEvent :=
  match fs path with
  | some sz =>
    if sz = expectedSize then (fs, [])
    else
      fetchStep dl (fun p => if p = path then none else fs p) remote path
        [DlEvent.removed path]
  | none => fetchStep dl fs remote path []

/-- The `zip`-driven loop body of `_download_items`. -/
def downloadItemsLoop (dl : String → RemoteFile) :
    FS → List ((String × Nat) × String) → FS × List DlEvent
  | fs, [] => (fs, [])
  | fs, ((remote, expectedSize), path) :: rest =>
    let step := downloadItemStep dl fs remote expectedSize path
    let next := downloadItemsLoop dl step.1 rest
    (next.1, step.2 ++ next.2)

/-- Shallow embedding of `_download_items` (lines 342-393): process the
zipped remote/local pairs and return the `local_items` argument
unchanged, exactly as the Python function does. -/
def downloadItems (dl : String → RemoteFile) (fs : FS)
    (remoteItems : List (String × Nat)) (localItems : List String) :
    FS × List DlEvent × List String :=
  let lp := downloadItemsLoop dl fs (remoteItems.zip localItems)
  (lp.1, lp.2, localItems)

/-- The sequential status-poll of `download` (lines 429-446): one GET per
order id; the maintenance sentinel aborts the whole call with `None`
(bare `return`); a non-2xx reply is only logged; a 2xx reply contributes
its items that belong to a requested order id and were not already
collected. -/
def pollStatuses (statusServer : Int → StatusReply) (orderIds : List Int) :
    List Int → List OrderItemStatus → Option (List OrderItemStatus)
  | [], acc => some acc
  | oid :: rest, acc =>
    match statusServer oid with
    | .down => none
    | .httpError => pollStatuses statusServer orderIds rest acc
    | .ok items =>
      let newItems := items.filter (fun it =>
        decide (it.orderId ∈ orderIds) && !(decide (it ∈ acc)))
      pollStatuses statusServer orderIds rest (acc ++ newItems)

/-- Shallow embedding of `EodmsAPI.download` (lines 395-488): wrap a
scalar order id, return `[]` for an empty id list, poll statuses, keep
the items `AVAILABLE_FOR_DOWNLOAD`, extract each ready item's URL and
size (exceptions propagate), derive the local targets, and either run
`_download_items` and return the targets that exist afterwards, or — when
every target already exists (`n_already_have` not less than the ready
count) — fall into the bare `return`, i.e. Python `None`. -/
def download (statusServer : Int → StatusReply) (dl : String → RemoteFile) (fs : FS)
    (orderIds : PyArg Int) (outputLocation : String) :
    Except PyError (Option (List String)) × FS × List DlEvent :=
  let ids := orderIds.asList
  if ids.length < 1 then (.ok (some []), fs, [])
  else
    match pollStatuses statusServer ids ids [] with
    | none => (.ok none, fs, [])
    | some items =>
      let ready := items.filter (fun it => it.status == "AVAILABLE_FOR_DOWNLOAD")
      match ready.mapM extractDownloadMetadata with
      | .error e => (.error e, fs, [])
      | .ok availableRemote =>
        let toDownload := availableRemote.map
          (fun f => pathJoin outputLocation (pyBasename f.1))
        let alreadyHave := toDownload.filter (fun f => (fs f).isSome)
        if alreadyHave.length < availableRemote.length then
          let dli := downloadItems dl fs availableRemote toDownload
          (.ok (some (dli.2.2.filter (fun f => (dli.1 f).isSome))), dli.1, dli.2.1)
        else
          (.ok none, fs, [])

/-- C3: An item of the download step whose local file exists with
exactly the expected size is skipped: the filesystem is untouched and no
event — in particular no network transfer — is produced.  An item whose
local file exists with a different size is first removed and then
fetched by exactly one GET (followed by a write only when the remote
content-type is the expected zip). -/
theorem download_item_size_check (dl : String → RemoteFile) (fs : FS)
    (remote : String) (expectedSize : Nat) (path : String) :
    (fs path = some expectedSize →
      downloadItemStep dl fs remote expectedSize path = (fs, []))
    ∧ (∀ sz, fs path = some sz → sz ≠ expectedSize →
        (downloadItemStep dl fs remote expectedSize path).2
            = DlEvent.removed path :: DlEvent.httpGet remote ::
              (if (dl remote).contentType = "application/zip"
               then [DlEvent.wrote path (dl remote).bytes] else [])
          ∧ (downloadItemStep dl fs remote expectedSize path).2.filter isHttpGet
              = [DlEvent.httpGet remote]) := by
  constructor
  · intro h
    simp [downloadItemStep, h]
  · intro sz h hne
    by_cases hct : (dl remote).contentType = "application/zip"
    · constructor
      · simp [downloadItemStep, h, hne, fetchStep, hct]
      · simp [downloadItemStep, h, hne, fetchStep, hct, isHttpGet]
    · constructor
      · simp [downloadItemStep, h, hne, fetchStep, hct]
      · simp [downloadItemStep, h, hne, fetchStep, hct, isHttpGet]

/-- A download source whose streamed GETs deliver 5-byte zip bodies. -/
def sampleDl : String → RemoteFile :=
  fun _ => { contentType := "application/zip", bytes := 5 }

/-- A filesystem holding a single 10-byte file. -/
def sampleFs : FS := fun p => if p = "out/a.zip" then some 10 else none

/-- Witness for C3: a matching 10-byte local file is skipped with no
events; against an expected size of 99 it is removed and re-fetched by
exactly one GET. -/
theorem download_item_size_check_witness :
    downloadItemStep sampleDl sampleFs "r" 10 "out/a.zip" = (sampleFs, [])
    ∧ ((downloadItemStep sampleDl sampleFs "r" 99 "out/a.zip").2
          = DlEvent.removed "out/a.zip" :: DlEvent.httpGet "r" ::
            (if (sampleDl "r").contentType = "application/zip"
             then [DlEvent.wrote "out/a.zip" (sampleDl "r").bytes] else [])
        ∧ (downloadItemStep sampleDl sampleFs "r" 99 "out/a.zip").2.filter isHttpGet
            = [DlEvent.httpGet "r"]) :=
  ⟨(download_item_size_check sampleDl sampleFs "r" 10 "out/a.zip").1 (by decide),
   (download_item_size_check sampleDl sampleFs "r" 99 "out/a.zip").2 10
     (by decide) (by decide)⟩

/-- A status server holding one ready item whose target is `out/f.zip`
of 100 bytes. -/
def sampleStatusServer : Int → StatusReply := fun _ =>
  .ok [{ orderId := 1, status := "AVAILABLE_FOR_DOWNLOAD",
         destinations := ["http://h/abc/f.zip"], manifest := [("abc/f.zip", 100)] }]

/-- A filesystem already holding the complete 100-byte `out/f.zip`. -/
def sampleLocalFs : FS := fun p => if p = "out/f.zip" then some 100 else none

/-- C4, evaluated at the failing input: every ready item's target already
exists locally, and `download` falls into the bare `return` of
eodms.py line 487, producing Python `None` instead of the list of
locally-present target paths the claim requires. -/
theorem download_all_exist_returns_none :
    (download sampleStatusServer (fun _ => { contentType := "application/zip", bytes := 100 })
        sampleLocalFs (PyArg.lst [1]) "out").1 = .ok none
    ∧ ((Except.ok none : Except PyError (Option (List String)))
        ≠ Except.ok (some ["out/f.zip"])) := by
  constructor
  · decide
  · decide

/-- C10: A bare scalar record id passed to `order`, and a bare scalar
order id passed to `download`, behave exactly as the one-element list
holding that scalar: both methods wrap the scalar before any other
processing. -/
theorem scalar_arg_wrapped (collection email outputLocation : String) (a : Int)
    (priority : List Char) (replies : Nat → OrderReply)
    (statusServer : Int → StatusReply) (dl : String → RemoteFile) (fs : FS) :
    order collection email (PyArg.scalar a) priority replies
      = order collection email (PyArg.lst [a]) priority replies
    ∧ download statusServer dl fs (PyArg.scalar a) outputLocation
      = download statusServer dl fs (PyArg.lst [a]) outputLocation :=
  ⟨rfl, rfl⟩

end Eodms
